import Mathlib

/-!
Verification of the flashcard card model and text parsing core
(`src/models/flashcard.py` and `src/utils/parser.py`).

Strings are modelled as `List Char`; Python `str.strip` is `trim`,
`re.sub` patterns of `pulisci_linea` are modelled by explicit
character-list functions, Python `float` statistics are modelled by `ℚ`
(all computations in scope are exact decimal fractions), and the
in-place `random.shuffle` is modelled by an explicit permutation-valued
`shuffle` parameter.  A Python function that can raise `ValueError`
is modelled with `Except`; diagnostics printed by `parse_testo` are
returned as a list of (line number, error) pairs.
-/

namespace Flashcards

/-- Python `str.strip` on the left: drop leading whitespace. -/
def trimLeft (l : List Char) : List Char := l.dropWhile Char.isWhitespace

/-- Python `str.strip` on the right: drop trailing whitespace. -/
def trimRight (l : List Char) : List Char :=
  (l.reverse.dropWhile Char.isWhitespace).reverse

/-- Python `str.strip`: drop leading and trailing whitespace. -/
def trim (l : List Char) : List Char := trimLeft (trimRight l)

/-- Helper for the whitespace-run substitution: `prevWs` records whether
the previous character was part of a whitespace run already replaced. -/
def collapseWsAux (prevWs : Bool) : List Char → List Char
  | [] => []
  | c :: r =>
    if c.isWhitespace then
      if prevWs then collapseWsAux true r
      else ' ' :: collapseWsAux true r
    else c :: collapseWsAux false r

/-- Python `re.sub(r's+', ' ', linea)` (with a backslash before the s):
each maximal run of whitespace becomes a single space. -/
def collapseWs (l : List Char) : List Char := collapseWsAux false l

/-- Python `linea_pulita.replace(LL, RR)` for the two-asterisk marker:
removes every non-overlapping occurrence of two adjacent asterisks,
scanning left to right. -/
def removeDoubleStar : List Char → List Char
  | [] => []
  | [c] => [c]
  | c :: d :: r =>
    if c = '*' ∧ d = '*' then removeDoubleStar r
    else c :: removeDoubleStar (d :: r)

/-- Python `subst in linea` for the two-asterisk marker: true iff the list
contains two adjacent asterisks. -/
def hasDoubleStar : List Char → Bool
  | c :: d :: r => (c == '*' && d == '*') || hasDoubleStar (d :: r)
  | _ => false

/-- Python `str.split(sep)` for a single-character separator. -/
def splitOnChar (sep : Char) : List Char → List (List Char)
  | [] => [[]]
  | c :: r =>
    if c = sep then [] :: splitOnChar sep r
    else
      match splitOnChar sep r with
      | [] => [[c]]
      | s :: ss => (c :: s) :: ss

/-- Python `'c'.join(linee)` for the newline character. -/
def intercalateNl : List (List Char) → List Char
  | [] => []
  | [l] => l
  | l :: resto => l ++ '\n' :: intercalateNl resto

/-- `Flashcard` from `src/models/flashcard.py`: a single card.
`ultima_revisione` is the optional ISO timestamp string. -/
structure Flashcard where
  tedesco : List Char
  italiano : List Char
  categoria : List Char
  priorita : Bool
  corrette : Nat
  sbagliate : Nat
  ultima_revisione : Option (List Char)
deriving DecidableEq, Repr

/-- `Flashcard.__init__` with all arguments: it only strips the three
string fields and stores everything; there is no validation and no
failure path. -/
def Flashcard.init (tedesco italiano categoria : List Char) (priorita : Bool)
    (corrette sbagliate : Nat) (ultima : Option (List Char)) : Flashcard :=
  ⟨trim tedesco, trim italiano, trim categoria, priorita, corrette, sbagliate, ultima⟩

/-- `Flashcard(tedesco=.., italiano=.., categoria=.., priorita=..)` with the
default statistics arguments (`corrette=0`, `sbagliate=0`,
`ultima_revisione=None`), as called by the parser. -/
def Flashcard.make (tedesco italiano categoria : List Char) (priorita : Bool) : Flashcard :=
  Flashcard.init tedesco italiano categoria priorita 0 0 none

/-- `Flashcard.tentativi_totali`. -/
def Flashcard.tentativi_totali (c : Flashcard) : Nat := c.corrette + c.sbagliate

/-- `Flashcard.percentuale_successo`: 0 when never attempted, otherwise
`corrette / tentativi_totali * 100`. -/
def Flashcard.percentuale_successo (c : Flashcard) : ℚ :=
  if c.tentativi_totali = 0 then 0
  else (c.corrette : ℚ) / (c.tentativi_totali : ℚ) * 100

/-- `FlashcardCollection.filtra_per_priorita`.  A collection is modelled by
its ordered list of cards. -/
def filtra_per_priorita (cards : List Flashcard) : List Flashcard :=
  cards.filter (fun c => c.priorita)

/-- `FlashcardCollection.filtra_per_difficolta`; the Python default for
`soglia` is `50.0`. -/
def filtra_per_difficolta (cards : List Flashcard) (soglia : ℚ) : List Flashcard :=
  cards.filter (fun c =>
    decide (0 < c.tentativi_totali) && decide (c.percentuale_successo < soglia))

/-- The filtering condition of `filtra_per_livello` for the string
`difficili`: attempted and success rate below 50. -/
def livelloDifficile (c : Flashcard) : Bool :=
  decide (0 < c.tentativi_totali) && decide (c.percentuale_successo < 50)

/-- The filtering condition of `filtra_per_livello` for the string
`medie`: attempted and success rate in the half-open band from 50 to 80. -/
def livelloMedio (c : Flashcard) : Bool :=
  decide (0 < c.tentativi_totali) && decide (50 ≤ c.percentuale_successo)
    && decide (c.percentuale_successo < 80)

/-- The filtering condition of `filtra_per_livello` for the string
`facili`: attempted and success rate at least 80. -/
def livelloFacile (c : Flashcard) : Bool :=
  decide (0 < c.tentativi_totali) && decide (80 ≤ c.percentuale_successo)

/-- The filtering condition of `filtra_per_livello` for the string
`non-studiate`: never attempted. -/
def livelloNonStudiata (c : Flashcard) : Bool :=
  decide (c.tentativi_totali = 0)

/-- `FlashcardCollection.filtra_per_livello`: four bands selected by the
level string, any other string returning the whole list. -/
def filtra_per_livello (cards : List Flashcard) (livello : List Char) : List Flashcard :=
  if livello = "difficili".data then cards.filter livelloDifficile
  else if livello = "medie".data then cards.filter livelloMedio
  else if livello = "facili".data then cards.filter livelloFacile
  else if livello = "non-studiate".data then cards.filter livelloNonStudiata
  else cards

/-- `FlashcardCollection.get_flashcards_casuali`: shuffles a copy of the
stored list and, when `numero` is truthy in Python (neither `None` nor
`0`), truncates to the first `numero` entries.  The in-place
`random.shuffle` is modelled by the explicit `shuffle` argument; theorems
assume it permutes its input. -/
def get_flashcards_casuali (shuffle : List Flashcard → List Flashcard)
    (cards : List Flashcard) (numero : Option Nat) : List Flashcard :=
  let mischiate := shuffle cards
  match numero with
  | some n => if n ≠ 0 then mischiate.take n else mischiate
  | none => mischiate

/-- The record returned by `get_statistiche_generali`. -/
structure Statistiche where
  totale_flashcards : Nat
  con_priorita : Nat
  totale_tentativi : Nat
  percentuale_media : ℚ
deriving DecidableEq, Repr

/-- `FlashcardCollection.get_statistiche_generali`: the empty collection
short-circuits to all-zero fields; otherwise the mean success rate is
taken only over attempted cards, or 0 when there is none. -/
def get_statistiche_generali (cards : List Flashcard) : Statistiche :=
  if cards = [] then ⟨0, 0, 0, 0⟩
  else
    let con_priorita := (filtra_per_priorita cards).length
    let totale_tentativi := (cards.map Flashcard.tentativi_totali).sum
    let cards_con_tentativi := cards.filter (fun c => decide (0 < c.tentativi_totali))
    let percentuale_media : ℚ :=
      if cards_con_tentativi = [] then 0
      else (cards_con_tentativi.map Flashcard.percentuale_successo).sum
            / (cards_con_tentativi.length : ℚ)
    ⟨cards.length, con_priorita, totale_tentativi, percentuale_media⟩

/-- The three `ValueError` reasons raised by `estrai_coppia`; each carries
the line text interpolated into the Python message (the `linea` variable
after category extraction rebinds it). -/
inductive ErroreParse where
  | separatoreNonTrovato (linea : List Char)
  | formatoNonValido (linea : List Char)
  | parolaVuota (linea : List Char)
deriving DecidableEq, Repr

/-- `FlashcardParser.ha_priorita`: a substring test for the two-asterisk
marker on the original line. -/
def ha_priorita (linea : List Char) : Bool := hasDoubleStar linea

/-- `FlashcardParser.pulisci_linea`: strip one leading bullet marker with
surrounding whitespace, collapse whitespace runs, strip. -/
def pulisci_linea (linea : List Char) : List Char :=
  let senzaBullet :=
    match linea.dropWhile Char.isWhitespace with
    | c :: r => if c = '*' ∨ c = '-' ∨ c = '•' then r.dropWhile Char.isWhitespace else linea
    | [] => linea
  trim (collapseWs senzaBullet)

/-- `FlashcardParser.estrai_categoria`: the anchored bracket-prefix
pattern.  It matches iff the line starts with an opening bracket, has a
closing bracket with at least one character between them, and at least
one character after the closing bracket; both groups are stripped
(stripping the rest also covers the regex backtracking case where the
rest is whitespace only). -/
def estrai_categoria (linea : List Char) : List Char × List Char :=
  match linea with
  | '[' :: resto =>
    let dentro := resto.takeWhile (fun c => c != ']')
    match resto.dropWhile (fun c => c != ']') with
    | _ :: coda =>
      if dentro ≠ [] ∧ coda ≠ [] then (trim dentro, trim coda)
      else ("Generale".data, linea)
    | [] => ("Generale".data, linea)
  | _ => ("Generale".data, linea)

/-- `FlashcardParser.estrai_coppia`: extract category, clean the rest,
remove the asterisk markers, require exactly one separator arrow and two
non-empty stripped sides; priority is read off the original line. -/
def estrai_coppia (linea : List Char) :
    Except ErroreParse (List Char × List Char × Bool × List Char) :=
  let ec := estrai_categoria linea
  let categoria := ec.1
  let resto := ec.2
  let linea_pulita := removeDoubleStar (pulisci_linea resto)
  if '→' ∉ linea_pulita then .error (.separatoreNonTrovato resto)
  else
    match splitOnChar '→' linea_pulita with
    | [p1, p2] =>
      let tedesco := trim p1
      let italiano := trim p2
      let priorita := ha_priorita linea
      if tedesco = [] ∨ italiano = [] then .error (.parolaVuota resto)
      else .ok (tedesco, italiano, priorita, categoria)
    | _ => .error (.formatoNonValido resto)

/-- The enumerated-line loop of `FlashcardParser.parse_testo`, with the
current heading category and the 1-based line counter threaded through;
the second component collects the per-line diagnostics that the Python
code prints before continuing. -/
def parse_linee (corrente : List Char) (i : Nat) :
    List (List Char) → List Flashcard × List (Nat × ErroreParse)
  | [] => ([], [])
  | l :: resto =>
    let linea := trim l
    if linea = [] then parse_linee corrente (i + 1) resto
    else if linea.head? = some '#' then
      parse_linee (trim (linea.dropWhile (fun c => c == '#'))) (i + 1) resto
    else if '→' ∉ linea then parse_linee corrente (i + 1) resto
    else
      match estrai_coppia linea with
      | .ok (tedesco, italiano, priorita, categoria) =>
        let cat :=
          if categoria = "Generale".data ∧ corrente ≠ "Generale".data then corrente
          else categoria
        let r := parse_linee corrente (i + 1) resto
        (Flashcard.make tedesco italiano cat priorita :: r.1, r.2)
      | .error e =>
        let r := parse_linee corrente (i + 1) resto
        (r.1, (i, e) :: r.2)

/-- `FlashcardParser.parse_testo`: strip the text, split on newlines,
run the line loop starting from the default category. -/
def parse_testo (testo : List Char) : List Flashcard × List (Nat × ErroreParse) :=
  parse_linee "Generale".data 1 (splitOnChar '\n' (trim testo))

/-- `FlashcardParser.flashcard_to_text`: bracket-prefix for a
non-default category, asterisk markers around the pair when priority. -/
def flashcard_to_text (f : Flashcard) : List Char :=
  let asterischi := if f.priorita then "**".data else []
  let categoria_str :=
    if f.categoria ≠ "Generale".data then '[' :: (f.categoria ++ "] ".data) else []
  categoria_str ++ asterischi ++ f.tedesco ++ " → ".data ++ f.italiano ++ asterischi

/-- Code-point lexicographic order on strings, as used by Python when
sorting by the `categoria` key. -/
def lexLe : List Char → List Char → Bool
  | [], _ => true
  | _ :: _, [] => false
  | a :: as, b :: bs => if a = b then lexLe as bs else decide (a < b)

/-- Stable insertion for the model of Python `sorted(key=categoria)`:
the new card goes after every already-placed card whose key is not
greater. -/
def inserisciPerCategoria (f : Flashcard) : List Flashcard → List Flashcard
  | [] => [f]
  | g :: resto =>
    if lexLe g.categoria f.categoria then g :: inserisciPerCategoria f resto
    else f :: g :: resto

/-- Model of `sorted(flashcards, key=lambda f: f.categoria)`: a stable
sort by category, as Python guarantees. -/
def ordinaPerCategoria (cards : List Flashcard) : List Flashcard :=
  cards.foldl (fun acc f => inserisciPerCategoria f acc) []

/-- The line-building loop of `collezione_to_text`: a heading line when
the category changes (with a blank line before it unless at the start),
then a bulleted card line. -/
def collezione_linee (corrente : Option (List Char)) (linee : List (List Char)) :
    List Flashcard → List (List Char)
  | [] => linee
  | f :: resto =>
    if some f.categoria ≠ corrente then
      let linee2 := linee ++ (if linee ≠ [] then [[]] else []) ++ ['#' :: ' ' :: f.categoria]
      collezione_linee (some f.categoria)
        (linee2 ++ [('*' :: ' ' :: flashcard_to_text f)]) resto
    else
      collezione_linee corrente (linee ++ [('*' :: ' ' :: flashcard_to_text f)]) resto

/-- `FlashcardParser.collezione_to_text`: sort by category, emit heading
and bulleted card lines, join with newlines. -/
def collezione_to_text (cards : List Flashcard) : List Char :=
  intercalateNl (collezione_linee none [] (ordinaPerCategoria cards))

theorem filtra_livello_difficili (cards : List Flashcard) :
    filtra_per_livello cards "difficili".data = cards.filter livelloDifficile := by
  rw [filtra_per_livello, if_pos rfl]

theorem filtra_livello_medie (cards : List Flashcard) :
    filtra_per_livello cards "medie".data = cards.filter livelloMedio := by
  rw [filtra_per_livello, if_neg (by decide), if_pos rfl]

theorem filtra_livello_facili (cards : List Flashcard) :
    filtra_per_livello cards "facili".data = cards.filter livelloFacile := by
  rw [filtra_per_livello, if_neg (by decide), if_neg (by decide), if_pos rfl]

theorem filtra_livello_non_studiate (cards : List Flashcard) :
    filtra_per_livello cards "non-studiate".data = cards.filter livelloNonStudiata := by
  rw [filtra_per_livello, if_neg (by decide), if_neg (by decide), if_neg (by decide),
    if_pos rfl]

/-- C5: with its default threshold 50.0, `filtra_per_difficolta` returns
exactly the list returned by `filtra_per_livello` for the level string
`difficili` (same cards, same order), and any card with zero attempts is
excluded from both even though its success rate is computed as 0. -/
theorem filtra_per_difficolta_eq_livello_difficili (cards : List Flashcard) :
    filtra_per_difficolta cards 50 = filtra_per_livello cards "difficili".data
    ∧ ∀ c : Flashcard, c.tentativi_totali = 0 →
        c.percentuale_successo = 0
        ∧ c ∉ filtra_per_difficolta cards 50
        ∧ c ∉ filtra_per_livello cards "difficili".data := by
  refine ⟨by rw [filtra_livello_difficili]; rfl, ?_⟩
  intro c hc
  have hperc : c.percentuale_successo = 0 := by
    rw [Flashcard.percentuale_successo, if_pos hc]
  have hpred : livelloDifficile c = false := by
    simp [livelloDifficile, hc]
  refine ⟨hperc, ?_, ?_⟩
  · intro hmem
    rw [show filtra_per_difficolta cards 50 = cards.filter livelloDifficile from rfl] at hmem
    have := (List.mem_filter.mp hmem).2
    rw [hpred] at this
    exact Bool.false_ne_true this
  · intro hmem
    rw [filtra_livello_difficili] at hmem
    have := (List.mem_filter.mp hmem).2
    rw [hpred] at this
    exact Bool.false_ne_true this

theorem filtra_per_difficolta_witness :
    (⟨"a".data, "b".data, "Generale".data, false, 0, 0, none⟩ : Flashcard).tentativi_totali = 0
    ∧ (⟨"a".data, "b".data, "Generale".data, false, 0, 0, none⟩ : Flashcard).percentuale_successo
        = 0 :=
  ⟨by decide,
   ((filtra_per_difficolta_eq_livello_difficili []).2
     ⟨"a".data, "b".data, "Generale".data, false, 0, 0, none⟩ (by decide)).1⟩

/-- C6: `get_statistiche_generali` on the empty collection returns
all-zero fields; in general it returns the card count, the priority-card
count, the sum of attempts, and the mean success rate over attempted
cards only (0 when there is none); the single card with 3 correct and 1
incorrect answers gives 4 total attempts and mean 75. -/
theorem get_statistiche_generali_spec :
    get_statistiche_generali [] = ⟨0, 0, 0, 0⟩
    ∧ (∀ cards : List Flashcard,
        (get_statistiche_generali cards).totale_flashcards = cards.length
        ∧ (get_statistiche_generali cards).con_priorita
            = (cards.filter (fun c => c.priorita)).length
        ∧ (get_statistiche_generali cards).totale_tentativi
            = (cards.map Flashcard.tentativi_totali).sum
        ∧ (get_statistiche_generali cards).percentuale_media
            = (if (cards.filter (fun c => decide (0 < c.tentativi_totali))) = [] then 0
               else ((cards.filter (fun c => decide (0 < c.tentativi_totali))).map
                      Flashcard.percentuale_successo).sum
                    / ((cards.filter (fun c => decide (0 < c.tentativi_totali))).length : ℚ)))
    ∧ get_statistiche_generali [⟨"a".data, "b".data, "Generale".data, false, 3, 1, none⟩]
        = ⟨1, 0, 4, 75⟩ := by
  refine ⟨by decide, ?_, ?_⟩
  case refine_2 =>
    rw [get_statistiche_generali, if_neg (by decide)]
    norm_num [filtra_per_priorita, Flashcard.tentativi_totali, Flashcard.percentuale_successo]
  intro cards
  by_cases hc : cards = []
  · subst hc
    refine ⟨rfl, rfl, rfl, ?_⟩
    rw [get_statistiche_generali, if_pos rfl]
    simp
  · rw [get_statistiche_generali, if_neg hc]
    exact ⟨rfl, rfl, rfl, rfl⟩

/-- C7 (amended): `get_flashcards_casuali` takes only the optional count
`numero`; it returns a permutation of the stored cards whenever `numero`
is `None` or `0` (Python falsiness), and the first `numero` entries of
the shuffle — hence `min numero n` cards — when `numero` is positive. -/
theorem get_flashcards_casuali_spec (shuffle : List Flashcard → List Flashcard)
    (cards : List Flashcard) (hs : ∀ l, (shuffle l).Perm l) :
    get_flashcards_casuali shuffle cards none = shuffle cards
    ∧ (get_flashcards_casuali shuffle cards none).Perm cards
    ∧ get_flashcards_casuali shuffle cards (some 0) = shuffle cards
    ∧ (get_flashcards_casuali shuffle cards (some 0)).Perm cards
    ∧ ∀ n : Nat, 0 < n →
        get_flashcards_casuali shuffle cards (some n) = (shuffle cards).take n
        ∧ (get_flashcards_casuali shuffle cards (some n)).length = min n cards.length := by
  refine ⟨rfl, hs cards, by rw [get_flashcards_casuali]; simp, ?_, ?_⟩
  · rw [get_flashcards_casuali]
    simpa using hs cards
  · intro n hn
    have hne : n ≠ 0 := Nat.pos_iff_ne_zero.mp hn
    constructor
    · rw [get_flashcards_casuali]
      simp [hne]
    · rw [get_flashcards_casuali]
      simp only [hne, if_pos, ne_eq, not_false_eq_true]
      rw [List.length_take, (hs cards).length_eq]

theorem get_flashcards_casuali_witness :
    (get_flashcards_casuali id
      [⟨"a".data, "b".data, "Generale".data, false, 0, 0, none⟩] (some 1)).length
      = min 1 1 :=
  ((get_flashcards_casuali_spec id
      [⟨"a".data, "b".data, "Generale".data, false, 0, 0, none⟩]
      (fun l => List.Perm.refl l)).2.2.2.2 1 Nat.one_pos).2

/-- C7 counterexample: with the identity permutation as the shuffle and a
one-card collection, asking for `numero = 0` returns the whole shuffle
(length 1), not `min 0 1 = 0` entries as the claim states: Python
treats `0` as falsy in `if numero:`.  There is also no categories
parameter to restrict by. -/
theorem get_flashcards_casuali_zero_counterexample :
    (∀ l : List Flashcard, (id l).Perm l)
    ∧ (get_flashcards_casuali id
        [⟨"a".data, "b".data, "Generale".data, false, 0, 0, none⟩] (some 0)).length = 1
    ∧ (1 : Nat) ≠ min 0 1 :=
  ⟨fun l => List.Perm.refl l, by decide, by decide⟩

/-- C8 (amended): `Flashcard.__init__` never fails — it only strips the
string fields and stores everything, even an empty term; the loud
failure for an empty term after trimming is raised by `estrai_coppia`,
and the per-line recovery of `parse_testo` contains it as a diagnostic
without aborting the batch. -/
theorem flashcard_init_total_empty_check_in_estrai_coppia :
    (∀ (ted ita cat : List Char) (pri : Bool) (cor sba : Nat) (ult : Option (List Char)),
        Flashcard.init ted ita cat pri cor sba ult
          = ⟨trim ted, trim ita, trim cat, pri, cor, sba, ult⟩)
    ∧ estrai_coppia "x →".data = .error (.parolaVuota "x →".data)
    ∧ estrai_coppia "→ x".data = .error (.parolaVuota "→ x".data)
    ∧ parse_testo "a → b\nx →".data
        = ([Flashcard.make "a".data "b".data "Generale".data false],
           [(2, .parolaVuota "x →".data)]) :=
  ⟨fun _ _ _ _ _ _ _ => rfl, by rfl, by rfl, by decide⟩

/-- C8 counterexample: constructing a card whose source term is empty
after trimming succeeds and stores the empty string — the constructor
does not fail loudly (it has no failure path at all). -/
theorem flashcard_init_empty_term_succeeds :
    Flashcard.init "  ".data "x".data "Generale".data false 0 0 none
      = ⟨[], "x".data, "Generale".data, false, 0, 0, none⟩ := by
  decide

/-- C2: a line whose cleaned form does not split into exactly two parts
on the arrow, or has an empty side, contributes no card: `parse_testo`
records a diagnostic with the 1-based line number and the reason and
continues with the same state, so every other valid line still parses —
shown in general for any failing line, and on the concrete batch where
lines 2 and 3 are malformed but lines 1 and 4 still produce cards. -/
theorem parse_testo_skips_malformed (corrente : List Char) (i : Nat) (l : List Char)
    (resto : List (List Char)) (e : ErroreParse)
    (h1 : trim l ≠ []) (h2 : (trim l).head? ≠ some '#') (h3 : '→' ∈ trim l)
    (h4 : estrai_coppia (trim l) = .error e) :
    parse_linee corrente i (l :: resto)
      = ((parse_linee corrente (i + 1) resto).1,
         (i, e) :: (parse_linee corrente (i + 1) resto).2)
    ∧ parse_testo "valido → ok\nA → B → C\n→\naltro → bene".data
      = ([Flashcard.make "valido".data "ok".data "Generale".data false,
          Flashcard.make "altro".data "bene".data "Generale".data false],
         [(2, .formatoNonValido "A → B → C".data), (3, .parolaVuota "→".data)]) := by
  constructor
  · simp only [parse_linee]
    rw [if_neg h1, if_neg h2, if_neg (by simp [h3]), h4]
  · decide

theorem parse_testo_skips_malformed_witness :
    parse_linee "Generale".data 5 ["A → B → C".data]
      = ((parse_linee "Generale".data 6 []).1,
         (5, ErroreParse.formatoNonValido "A → B → C".data)
           :: (parse_linee "Generale".data 6 []).2) :=
  (parse_testo_skips_malformed "Generale".data 5 "A → B → C".data []
    (ErroreParse.formatoNonValido "A → B → C".data)
    (by decide) (by decide) (by decide) (by rfl)).1

/-- C3: a line starting with a hash sets the current category (hash
characters stripped, result trimmed) and yields no card, and that
category persists for every following line until the next hash line; a
card line whose own extracted category is the default gets the current
category; concretely, a Grammar heading followed by a bracketless pair
yields category Grammar, and with no heading the category is the
default one. -/
theorem parse_testo_category_headings :
    (∀ (corrente : List Char) (i : Nat) (l : List Char) (resto : List (List Char)),
        trim l ≠ [] → (trim l).head? = some '#' →
        parse_linee corrente i (l :: resto)
          = parse_linee (trim ((trim l).dropWhile (fun c => c == '#'))) (i + 1) resto)
    ∧ (∀ (corrente : List Char) (i : Nat) (l : List Char) (resto : List (List Char))
         (ted ita : List Char) (pri : Bool),
        trim l ≠ [] → (trim l).head? ≠ some '#' → '→' ∈ trim l →
        estrai_coppia (trim l) = .ok (ted, ita, pri, "Generale".data) →
        parse_linee corrente i (l :: resto)
          = (Flashcard.make ted ita corrente pri :: (parse_linee corrente (i + 1) resto).1,
             (parse_linee corrente (i + 1) resto).2))
    ∧ parse_testo "# Grammar\nHaus → house".data
        = ([Flashcard.make "Haus".data "house".data "Grammar".data false], [])
    ∧ parse_testo "Haus → house".data
        = ([Flashcard.make "Haus".data "house".data "Generale".data false], []) := by
  refine ⟨?_, ?_, by decide, by decide⟩
  · intro corrente i l resto h1 h2
    simp only [parse_linee]
    rw [if_neg h1, if_pos h2]
  · intro corrente i l resto ted ita pri h1 h2 h3 h4
    simp only [parse_linee]
    rw [if_neg h1, if_neg h2, if_neg (by simp [h3]), h4]
    dsimp only
    by_cases hc : corrente = "Generale".data
    · rw [if_neg (by simp [hc])]
      rw [hc]
    · rw [if_pos ⟨rfl, hc⟩]

theorem parse_testo_category_headings_witness :
    parse_linee "Generale".data 1 ["# Grammar".data, "Haus → house".data]
      = parse_linee (trim ((trim "# Grammar".data).dropWhile (fun c => c == '#'))) 2
          ["Haus → house".data] :=
  parse_testo_category_headings.1 "Generale".data 1 "# Grammar".data
    ["Haus → house".data] (by decide) (by decide)

/-- C9 (amended): heading-based and bracket-prefix category syntaxes are
both honored within one parse: a card line carrying a non-default
bracket category keeps it regardless of the current heading category,
while bracketless lines take the heading category; the concrete text has one card categorized by the
heading and another by its bracket prefix in the same parse. -/
theorem parse_testo_both_category_syntaxes :
    (∀ (corrente : List Char) (i : Nat) (l : List Char) (resto : List (List Char))
       (ted ita cat : List Char) (pri : Bool),
        trim l ≠ [] → (trim l).head? ≠ some '#' → '→' ∈ trim l →
        estrai_coppia (trim l) = .ok (ted, ita, pri, cat) → cat ≠ "Generale".data →
        parse_linee corrente i (l :: resto)
          = (Flashcard.make ted ita cat pri :: (parse_linee corrente (i + 1) resto).1,
             (parse_linee corrente (i + 1) resto).2))
    ∧ parse_testo "# Uno\na → b\n[Due] c → d".data
        = ([Flashcard.make "a".data "b".data "Uno".data false,
            Flashcard.make "c".data "d".data "Due".data false], []) := by
  constructor
  · intro corrente i l resto ted ita cat pri h1 h2 h3 h4 h5
    simp only [parse_linee]
    rw [if_neg h1, if_neg h2, if_neg (by simp [h3]), h4]
    dsimp only
    rw [if_neg (by intro h; exact h5 h.1)]
  · decide

theorem parse_testo_both_category_syntaxes_witness :
    parse_linee "Uno".data 3 ["[Due] c → d".data]
      = (Flashcard.make "c".data "d".data "Due".data false
           :: (parse_linee "Uno".data 4 []).1,
         (parse_linee "Uno".data 4 []).2) :=
  parse_testo_both_category_syntaxes.1 "Uno".data 3 "[Due] c → d".data []
    "c".data "d".data "Due".data false (by decide) (by decide) (by decide) (by rfl)
    (by decide)

/-- C9 counterexample: there is an input text in which a hash heading
determines one card's category (`Uno`) while a bracket prefix determines
another's (`Due`) within the same parse — the two syntaxes are
simultaneously supported, contrary to the claim. -/
theorem parse_testo_both_syntaxes_one_parse :
    ((parse_testo "# Uno\na → b\n[Due] c → d".data).1.map Flashcard.categoria)
      = ["Uno".data, "Due".data]
    ∧ "Uno".data ≠ "Due".data := by
  constructor
  · decide
  · decide

/-- C1 (code bug): round-tripping a one-card collection with a
non-default category through `collezione_to_text` and `parse_testo` does
not reproduce the card's tuple: `collezione_to_text` writes the bullet
before the bracket prefix, but `estrai_categoria` only matches a bracket
at the start of the line, so the bracket text leaks into the parsed
source term. -/
theorem collezione_to_text_roundtrip_bracket_leak :
    collezione_to_text [⟨"a".data, "b".data, "Verbi".data, false, 0, 0, none⟩]
      = "# Verbi\n* [Verbi] a → b".data
    ∧ (parse_testo (collezione_to_text
          [⟨"a".data, "b".data, "Verbi".data, false, 0, 0, none⟩])).1
        = [Flashcard.make "[Verbi] a".data "b".data "Verbi".data false]
    ∧ ((parse_testo (collezione_to_text
          [⟨"a".data, "b".data, "Verbi".data, false, 0, 0, none⟩])).1.map
            (fun f => (f.tedesco, f.italiano, f.categoria, f.priorita)))
        ≠ [("a".data, "b".data, "Verbi".data, false)] := by
  refine ⟨by decide, by decide, by decide⟩

theorem bande_exactly_one (c : Flashcard) :
    (if livelloDifficile c then 1 else 0) + (if livelloMedio c then 1 else 0)
      + (if livelloFacile c then 1 else 0) + (if livelloNonStudiata c then 1 else 0)
      = (1 : Nat) := by
  rcases Nat.eq_zero_or_pos c.tentativi_totali with h0 | h0
  · simp [livelloDifficile, livelloMedio, livelloFacile, livelloNonStudiata, h0]
  · have hn0 : ¬ c.tentativi_totali = 0 := Nat.pos_iff_ne_zero.mp h0
    by_cases h1 : c.percentuale_successo < 50
    · have h2 : ¬ 50 ≤ c.percentuale_successo := not_le.mpr h1
      have h3 : ¬ 80 ≤ c.percentuale_successo := by
        intro h
        exact absurd (lt_of_le_of_lt h h1) (by norm_num)
      simp [livelloDifficile, livelloMedio, livelloFacile, livelloNonStudiata,
        h0, hn0, h1, h2, h3]
    · by_cases h2 : c.percentuale_successo < 80
      · have h3 : 50 ≤ c.percentuale_successo := not_lt.mp h1
        have h4 : ¬ 80 ≤ c.percentuale_successo := not_le.mpr h2
        simp [livelloDifficile, livelloMedio, livelloFacile, livelloNonStudiata,
          h0, hn0, h1, h2, h3, h4]
      · have h3 : 80 ≤ c.percentuale_successo := not_lt.mp h2
        simp [livelloDifficile, livelloMedio, livelloFacile, livelloNonStudiata,
          h0, hn0, h1, h2, h3]

/-- C10: the four level bands of `filtra_per_livello` partition the
collection: the four filtered lists account for every card exactly once
(their lengths sum to the collection size), and every card of the
collection belongs to exactly one of the four filtered lists. -/
theorem filtra_per_livello_partition (cards : List Flashcard) :
    (filtra_per_livello cards "difficili".data).length
      + (filtra_per_livello cards "medie".data).length
      + (filtra_per_livello cards "facili".data).length
      + (filtra_per_livello cards "non-studiate".data).length
      = cards.length
    ∧ ∀ c ∈ cards,
        (c ∈ filtra_per_livello cards "difficili".data
          ∧ c ∉ filtra_per_livello cards "medie".data
          ∧ c ∉ filtra_per_livello cards "facili".data
          ∧ c ∉ filtra_per_livello cards "non-studiate".data)
      ∨ (c ∉ filtra_per_livello cards "difficili".data
          ∧ c ∈ filtra_per_livello cards "medie".data
          ∧ c ∉ filtra_per_livello cards "facili".data
          ∧ c ∉ filtra_per_livello cards "non-studiate".data)
      ∨ (c ∉ filtra_per_livello cards "difficili".data
          ∧ c ∉ filtra_per_livello cards "medie".data
          ∧ c ∈ filtra_per_livello cards "facili".data
          ∧ c ∉ filtra_per_livello cards "non-studiate".data)
      ∨ (c ∉ filtra_per_livello cards "difficili".data
          ∧ c ∉ filtra_per_livello cards "medie".data
          ∧ c ∉ filtra_per_livello cards "facili".data
          ∧ c ∈ filtra_per_livello cards "non-studiate".data) := by
  rw [filtra_livello_difficili, filtra_livello_medie, filtra_livello_facili,
    filtra_livello_non_studiate]
  constructor
  · induction cards with
    | nil => rfl
    | cons c r ih =>
      have h1 := bande_exactly_one c
      by_cases hd : livelloDifficile c <;> by_cases hm : livelloMedio c <;>
        by_cases hf : livelloFacile c <;> by_cases hn : livelloNonStudiata c <;>
        simp only [hd, hm, hf, hn, if_pos, if_neg, Bool.false_eq_true,
          not_false_eq_true, List.filter_cons_of_pos, List.filter_cons_of_neg,
          List.length_cons, if_true, if_false] at h1 ⊢ <;>
        omega
  · intro c hc
    have h1 := bande_exactly_one c
    by_cases hd : livelloDifficile c <;> by_cases hm : livelloMedio c <;>
      by_cases hf : livelloFacile c <;> by_cases hn : livelloNonStudiata c <;>
      simp only [hd, hm, hf, hn, if_true, if_false, Bool.false_eq_true,
        not_false_eq_true] at h1 <;>
      first
        | omega
        | simp [List.mem_filter, hc, hd, hm, hf, hn]

theorem filtra_per_livello_partition_witness :
    (⟨"a".data, "b".data, "Generale".data, false, 0, 0, none⟩ : Flashcard)
        ∈ [(⟨"a".data, "b".data, "Generale".data, false, 0, 0, none⟩ : Flashcard)]
    ∧ (filtra_per_livello [(⟨"a".data, "b".data, "Generale".data, false, 0, 0, none⟩ :
          Flashcard)] "difficili".data).length
        + (filtra_per_livello [(⟨"a".data, "b".data, "Generale".data, false, 0, 0, none⟩ :
            Flashcard)] "medie".data).length
        + (filtra_per_livello [(⟨"a".data, "b".data, "Generale".data, false, 0, 0, none⟩ :
            Flashcard)] "facili".data).length
        + (filtra_per_livello [(⟨"a".data, "b".data, "Generale".data, false, 0, 0, none⟩ :
            Flashcard)] "non-studiate".data).length
        = 1 :=
  ⟨List.mem_singleton.mpr rfl,
   (filtra_per_livello_partition
     [(⟨"a".data, "b".data, "Generale".data, false, 0, 0, none⟩ : Flashcard)]).1⟩

theorem hds_nil : hasDoubleStar [] = false := rfl

theorem hds_single (c : Char) : hasDoubleStar [c] = false := rfl

theorem hds_cons2 (c d : Char) (r : List Char) :
    hasDoubleStar (c :: d :: r) = ((c == '*' && d == '*') || hasDoubleStar (d :: r)) := rfl

theorem hds_cons_false {c : Char} {l : List Char}
    (h : hasDoubleStar (c :: l) = false) : hasDoubleStar l = false := by
  cases l with
  | nil => rfl
  | cons d r =>
    rw [hds_cons2] at h
    exact (Bool.or_eq_false_iff.mp h).2

theorem hds_append_false (a b : List Char)
    (h : hasDoubleStar (a ++ b) = false) :
    hasDoubleStar a = false ∧ hasDoubleStar b = false := by
  induction a with
  | nil => exact ⟨rfl, h⟩
  | cons c rest ih =>
    cases rest with
    | nil =>
      refine ⟨rfl, ?_⟩
      exact hds_cons_false (by simpa using h)
    | cons c2 a2 =>
      rw [List.cons_append, List.cons_append, hds_cons2] at h
      obtain ⟨hpair, htail⟩ := Bool.or_eq_false_iff.mp h
      have htail2 : hasDoubleStar ((c2 :: a2) ++ b) = false := by
        simpa using htail
      obtain ⟨hr, hb⟩ := ih htail2
      refine ⟨?_, hb⟩
      rw [hds_cons2, hpair, hr]
      rfl

theorem rds_nil : removeDoubleStar [] = [] := rfl

theorem rds_single (c : Char) : removeDoubleStar [c] = [c] := rfl

theorem rds_cons2 (c d : Char) (r : List Char) :
    removeDoubleStar (c :: d :: r)
      = if c = '*' ∧ d = '*' then removeDoubleStar r
        else c :: removeDoubleStar (d :: r) := rfl

theorem rds_head {d : Char} (r : List Char) (hd : d ≠ '*') :
    (removeDoubleStar (d :: r)).head? = some d := by
  cases r with
  | nil => rfl
  | cons e r2 =>
    rw [rds_cons2, if_neg (by intro hx; exact hd hx.1)]
    rfl

theorem hds_rds (l : List Char) : hasDoubleStar (removeDoubleStar l) = false := by
  induction l using removeDoubleStar.induct with
  | case1 => rfl
  | case2 c => rfl
  | case3 c d r h ih =>
    rw [rds_cons2, if_pos h]
    exact ih
  | case4 c d r h ih =>
    rw [rds_cons2, if_neg h]
    by_cases hc : c = '*'
    · have hd : d ≠ '*' := fun hdd => h ⟨hc, hdd⟩
      have hh := rds_head r hd
      cases hx : removeDoubleStar (d :: r) with
      | nil => rfl
      | cons e rest =>
        rw [hx] at hh ih
        have he : e = d := by simpa using hh
        rw [hds_cons2, ih]
        have hstar : (e == '*') = false := by
          simp [he, hd]
        rw [hstar]
        simp
    · cases hx : removeDoubleStar (d :: r) with
      | nil => rfl
      | cons e rest =>
        rw [hx] at ih
        rw [hds_cons2, ih]
        have hstar : (c == '*') = false := by
          simp [hc]
        rw [hstar]
        simp

theorem hds_trimLeft {l : List Char} (h : hasDoubleStar l = false) :
    hasDoubleStar (trimLeft l) = false := by
  have hsplit : l.takeWhile Char.isWhitespace ++ l.dropWhile Char.isWhitespace = l :=
    List.takeWhile_append_dropWhile Char.isWhitespace l
  have := hds_append_false (l.takeWhile Char.isWhitespace) (l.dropWhile Char.isWhitespace)
    (by rw [hsplit]; exact h)
  exact this.2

theorem hds_trimRight {l : List Char} (h : hasDoubleStar l = false) :
    hasDoubleStar (trimRight l) = false := by
  have hsplit : l.reverse.takeWhile Char.isWhitespace
      ++ l.reverse.dropWhile Char.isWhitespace = l.reverse :=
    List.takeWhile_append_dropWhile Char.isWhitespace l.reverse
  have hl : l = (l.reverse.dropWhile Char.isWhitespace).reverse
      ++ (l.reverse.takeWhile Char.isWhitespace).reverse := by
    conv_lhs => rw [← l.reverse_reverse, ← hsplit]
    rw [List.reverse_append]
  rw [hl] at h
  exact (hds_append_false _ _ h).1

theorem hds_trim {l : List Char} (h : hasDoubleStar l = false) :
    hasDoubleStar (trim l) = false :=
  hds_trimLeft (hds_trimRight h)

/-- Python `sep.join` for a single-character separator, the inverse view
of `splitOnChar` used to reason about split results. -/
def joinSep (sep : Char) : List (List Char) → List Char
  | [] => []
  | [p] => p
  | p :: resto => p ++ sep :: joinSep sep resto

theorem joinSep_cons2 (sep : Char) (p q : List Char) (resto : List (List Char)) :
    joinSep sep (p :: q :: resto) = p ++ sep :: joinSep sep (q :: resto) := rfl

theorem splitOnChar_ne_nil (sep : Char) (l : List Char) : splitOnChar sep l ≠ [] := by
  cases l with
  | nil => exact List.cons_ne_nil _ _
  | cons c r =>
    rw [splitOnChar]
    by_cases h : c = sep
    · rw [if_pos h]
      exact List.cons_ne_nil _ _
    · rw [if_neg h]
      rcases hs : splitOnChar sep r with _ | ⟨s, ss⟩ <;> simp

theorem joinSep_splitOnChar (sep : Char) (l : List Char) :
    joinSep sep (splitOnChar sep l) = l := by
  induction l with
  | nil => rfl
  | cons c r ih =>
    rw [splitOnChar]
    by_cases h : c = sep
    · rw [if_pos h]
      rcases hs : splitOnChar sep r with _ | ⟨s, ss⟩
      · exact absurd hs (splitOnChar_ne_nil sep r)
      · rw [hs] at ih
        rw [joinSep_cons2, ← ih, h]
        rfl
    · rw [if_neg h]
      rcases hs : splitOnChar sep r with _ | ⟨s, ss⟩
      · exact absurd hs (splitOnChar_ne_nil sep r)
      · rw [hs] at ih
        cases ss with
        | nil =>
          have hsr : s = r := by simpa [joinSep] using ih
          simp [joinSep, hsr]
        | cons q ss2 =>
          rw [joinSep_cons2] at ih
          rw [joinSep_cons2, List.cons_append, ih]

theorem splitOnChar_two_append {sep : Char} {l p1 p2 : List Char}
    (h : splitOnChar sep l = [p1, p2]) : l = p1 ++ sep :: p2 := by
  have hj := joinSep_splitOnChar sep l
  rw [h] at hj
  rw [show joinSep sep [p1, p2] = p1 ++ sep :: p2 from rfl] at hj
  exact hj.symm

/-- C4: whenever `estrai_coppia` parses a line into a card tuple, the
priority flag is exactly the double-asterisk substring test on the
original pre-cleaning line (`ha_priorita`), and both resulting terms are
free of double asterisks because all marker occurrences are removed
before splitting; concretely, marker position does not matter — placed
around the whole pair or just around the arrow, priority is true. -/
theorem estrai_coppia_priorita (linea ted ita : List Char) (pri : Bool) (cat : List Char)
    (h : estrai_coppia linea = .ok (ted, ita, pri, cat)) :
    pri = ha_priorita linea
    ∧ hasDoubleStar ted = false
    ∧ hasDoubleStar ita = false
    ∧ estrai_coppia "**A → B**".data = .ok ("*A".data, "B".data, true, "Generale".data)
    ∧ estrai_coppia "A **→** B".data = .ok ("A".data, "B".data, true, "Generale".data) := by
  simp only [estrai_coppia] at h
  split at h
  · exact absurd h (by simp)
  · split at h
    · rename_i p1 p2 heq
      split at h
      · exact absurd h (by simp)
      · simp only [Except.ok.injEq, Prod.mk.injEq] at h
        obtain ⟨h1, h2, h3, _⟩ := h
        subst h1
        subst h2
        subst h3
        have hX := hds_rds (pulisci_linea (estrai_categoria linea).2)
        have hl := splitOnChar_two_append heq
        rw [hl] at hX
        obtain ⟨ha, hb⟩ := hds_append_false _ _ hX
        exact ⟨rfl, hds_trim ha, hds_trim (hds_cons_false hb), by rfl, by rfl⟩
    · exact absurd h (by simp)

theorem estrai_coppia_priorita_witness :
    true = ha_priorita "**A → B**".data
    ∧ hasDoubleStar "*A".data = false
    ∧ hasDoubleStar "B".data = false
    ∧ estrai_coppia "**A → B**".data = .ok ("*A".data, "B".data, true, "Generale".data)
    ∧ estrai_coppia "A **→** B".data = .ok ("A".data, "B".data, true, "Generale".data) :=
  estrai_coppia_priorita "**A → B**".data "*A".data "B".data true "Generale".data (by rfl)

end Flashcards
